import Mathlib

/-!
Verification development for the world-arcade browser client
(dweam_web): the WebRTC game view (GameViewReact.tsx), the API client
(lib/api.ts), the parameter panel (ParamsPanelReact.jsx) and the game
store (gameStore). The TypeScript sources are embedded shallowly:
JavaScript values flowing through the client are modelled by the
inductive type Json below, stateful components by explicit state
records with step functions, and fallible operations by Except/Option.
-/

/-- JavaScript values observable in the client data flow: the six JSON
value forms plus the JavaScript undefined value, which arises when a
missing member is read or assigned. Numeric payloads in the client
(keyCode, movementX, movementY, button) are integral, so numbers are
modelled as Int. -/
inductive Json where
  | null : Json
  | undef : Json
  | bool : Bool → Json
  | num : Int → Json
  | str : String → Json
  | arr : List Json → Json
  | obj : List (String × Json) → Json

/-- First binding of a key in an object field list, as JavaScript
property lookup on objects parsed from JSON (keys are unique there). -/
def lookupField : List (String × Json) → String → Option Json
  | [], _ => none
  | (k, v) :: rest, key => if k = key then some v else lookupField rest key

/-- The JavaScript delete operator on an object field list: removes the
bindings of the given key. -/
def deleteField : List (String × Json) → String → List (String × Json)
  | [], _ => []
  | (k, v) :: rest, key =>
      if k = key then deleteField rest key else (k, v) :: deleteField rest key

/-- Member read `v[key]` on a JavaScript value, returning none
(undefined) when the receiver is not an object or lacks the key.
Reads on null and undefined receivers throw and are modelled
separately by jsMember. -/
def jsGet : Json → String → Option Json
  | .obj fields, key => lookupField fields key
  | _, _ => none

/-- Member read defaulted to undefined, for chaining concrete
evaluations. -/
def jsGetD (v : Json) (key : String) : Json :=
  (jsGet v key).getD Json.undef

/-- Member read as the JavaScript runtime performs it: reading a
property of null or undefined throws a TypeError; on any other value
the read yields the bound value or undefined. -/
def jsMember : Json → String → Except String (Option Json)
  | .null, key => .error ("TypeError: cannot read " ++ key ++ " of null")
  | .undef, key => .error ("TypeError: cannot read " ++ key ++ " of undefined")
  | .obj fields, key => .ok (lookupField fields key)
  | _, _ => .ok none

/-- JavaScript truthiness of the result of a member read: absent
members, undefined, null, false, 0 and the empty string are falsy,
everything else truthy. -/
def truthy : Option Json → Bool
  | none => false
  | some .null => false
  | some .undef => false
  | some (.bool b) => b
  | some (.num n) => !(n == 0)
  | some (.str s) => !(s == "")
  | some (.arr _) => true
  | some (.obj _) => true

/-- Replace the binding of an existing key in an object, leaving other
values unchanged. Models an in-place update of a property that is
known to be present. -/
def setField (v : Json) (key : String) (newVal : Json) : Json :=
  match v with
  | .obj fields =>
      .obj (fields.map fun kv => if kv.1 = key then (key, newVal) else kv)
  | other => other

/-- Escapes a string for inclusion in JSON output. The client messages
contain no control characters, so only the quote and the backslash are
escaped, as in JSON.stringify for such strings. -/
def escapeString (s : String) : String :=
  String.join (s.toList.map fun c =>
    if c = '"' then "\\\"" else if c = '\\' then "\\\\" else String.singleton c)

mutual

/-- JSON.stringify: undefined serializes to nothing (none) at top
level, is dropped inside objects, and becomes null inside arrays. -/
def stringify : Json → Option String
  | .null => some "null"
  | .undef => none
  | .bool b => some (if b then "true" else "false")
  | .num n => some (toString n)
  | .str s => some ("\"" ++ escapeString s ++ "\"")
  | .arr xs => some ("[" ++ stringifyArr xs ++ "]")
  | .obj fields => some ("\x7b" ++ stringifyFields fields ++ "\x7d")

def stringifyArr : List Json → String
  | [] => ""
  | [x] => (stringify x).getD "null"
  | x :: y :: rest => (stringify x).getD "null" ++ "," ++ stringifyArr (y :: rest)

def stringifyFields : List (String × Json) → String
  | [] => ""
  | (k, v) :: rest =>
      match stringify v with
      | none => stringifyFields rest
      | some sv =>
          let entry := "\"" ++ escapeString k ++ "\":" ++ sv
          match rest with
          | [] => entry
          | _ =>
              let restStr := stringifyFields rest
              if restStr = "" then entry else entry ++ "," ++ restStr

end

/-- One call to ApiClient.request in lib/api.ts, before the response
arrives: HTTP method, endpoint path appended to the base URL, and the
already-serialized request body (fetch sends none for GET). No
endpoint method of this client passes extra headers or query params. -/
structure RequestSpec where
  method : String
  path : String
  body : Option String

/-- The seven endpoint methods of ApiClient in lib/api.ts. -/
inductive EndpointCall where
  | getStatus
  | getGameInfo
  | getGameDetails (gameType gameId : String)
  | getTurnCredentials
  | createOffer (gameType gameId : String) (data : Json)
  | getParamsSchema (sid : String)
  | updateParams (sessionId : String) (data : Json)

/-- The request each ApiClient method builds, translated from
lib/api.ts: paths are literal template strings, POST bodies go through
JSON.stringify, and updateParams wraps the submitted data under the
key params. -/
def requestSpecOf : EndpointCall → RequestSpec
  | .getStatus => ⟨"GET", "/status", none⟩
  | .getGameInfo => ⟨"GET", "/game_info", none⟩
  | .getGameDetails gameType gameId =>
      ⟨"GET", "/game_info/" ++ gameType ++ "/" ++ gameId, none⟩
  | .getTurnCredentials => ⟨"GET", "/turn-credentials", none⟩
  | .createOffer gameType gameId data =>
      ⟨"POST", "/offer/" ++ gameType ++ "/" ++ gameId, stringify data⟩
  | .getParamsSchema sid => ⟨"GET", "/params/" ++ sid ++ "/schema", none⟩
  | .updateParams sessionId data =>
      ⟨"POST", "/params/" ++ sessionId,
       stringify (Json.obj [("params", data)])⟩

/-- The headers ApiClient.request merges into every fetch call; no
caller overrides them. -/
def requestHeaders : List (String × String) :=
  [("Content-Type", "application/json")]

/-- The full fetch invocation ApiClient.request performs for a request
spec: base URL plus endpoint path (no endpoint passes query params, so
no query string is appended), the merged headers, method and body. -/
structure FetchCall where
  url : String
  method : String
  headers : List (String × String)
  body : Option String

def performFetch (baseUrl : String) (spec : RequestSpec) : FetchCall :=
  ⟨baseUrl ++ spec.path, spec.method, requestHeaders, spec.body⟩

/-- An HTTP response as ApiClient.request observes it: the ok flag,
the status text used in the error message, and the parsed JSON body.
A rejected fetch or an unparsable body makes request rethrow and is
outside this record. -/
structure HttpResponse where
  ok : Bool
  statusText : String
  body : Json

/-- Response handling of ApiClient.request: a non-ok response throws
an Error built from the status text, an ok response resolves with the
parsed body. -/
def request (resp : HttpResponse) : Except String Json :=
  if resp.ok then .ok resp.body
  else .error ("API request failed: " ++ resp.statusText)

/-- End-to-end behaviour of one ApiClient endpoint method on a
response: every method delegates to request. -/
def callEndpoint (_e : EndpointCall) (resp : HttpResponse) : Except String Json :=
  request resp

/-- Calling a method on a value parsed from a JSON body. Parsed JSON
data never carries function-valued members, so the invocation throws a
TypeError. -/
def jsCallMethod (_v : Json) (methodName : String) : Except String Json :=
  .error ("TypeError: " ++ methodName ++ " is not a function")

/-- Client-side state touched by cleanup in GameViewReact.tsx: the
three refs, the video srcObject (carrying its number of tracks), the
connection state, and release counters recording how often each
resource operation (clearInterval, RTCDataChannel.close,
RTCPeerConnection.close, MediaStreamTrack.stop) has run. -/
structure GameViewState where
  heartbeatInterval : Option Nat
  dataChannel : Option Nat
  pc : Option Nat
  srcObject : Option Nat
  connectionState : String
  intervalClearCalls : Nat
  channelCloseCalls : Nat
  pcCloseCalls : Nat
  trackStopCalls : Nat

/-- The cleanup routine of GameViewReact.tsx: each resource is
released only if its ref (or srcObject) is still set, the ref is then
nulled, the connection state becomes disconnected, and a
gameSessionEnd event is dispatched unconditionally. -/
def cleanup (s : GameViewState) : GameViewState × List String :=
  let s :=
    if s.heartbeatInterval.isSome then
      { s with heartbeatInterval := none,
               intervalClearCalls := s.intervalClearCalls + 1 }
    else s
  let s :=
    if s.dataChannel.isSome then
      { s with dataChannel := none,
               channelCloseCalls := s.channelCloseCalls + 1 }
    else s
  let s :=
    if s.pc.isSome then
      { s with pc := none, pcCloseCalls := s.pcCloseCalls + 1 }
    else s
  let s :=
    match s.srcObject with
    | some n =>
        { s with srcObject := none, trackStopCalls := s.trackStopCalls + n }
    | none => s
  ({ s with connectionState := "disconnected" }, ["gameSessionEnd"])

/-- The oniceconnectionstatechange handler in GameViewReact.tsx:
invokes cleanup when the ICE connection state is failed or closed,
otherwise does nothing. -/
def oniceconnectionstatechange (iceConnectionState : String)
    (s : GameViewState) : GameViewState × List String :=
  if iceConnectionState = "failed" ∨ iceConnectionState = "closed" then
    cleanup s
  else (s, [])

/-- What the offer branch of startPlayback produces besides state: the
argument passed to setRemoteDescription, and the sessionId carried in
the detail of a dispatched gameSessionReady event. -/
structure StartOutcome where
  remoteDescription : Option Json
  sessionReadyDetail : Option Json

/-- The try block of startPlayback in GameViewReact.tsx after the call
to api.createOffer, which resolves with the parsed answer body (or
rejects). The code reads response.ok on that parsed value, and in the
truthy case calls response.json() on it; both the not-ok branch (which
calls cleanup and throws) and any thrown error land in the catch
block, which calls cleanup. -/
def startPlaybackAfterOffer (offerResult : Except String Json)
    (s : GameViewState) : GameViewState × StartOutcome :=
  match offerResult with
  | .error _ => ((cleanup s).1, ⟨none, none⟩)
  | .ok response =>
    match jsMember response "ok" with
    | .error _ => ((cleanup s).1, ⟨none, none⟩)
    | .ok okVal =>
      if truthy okVal then
        match jsCallMethod response "json" with
        | .ok answer =>
            (s, ⟨some answer, some (jsGetD answer "sessionId")⟩)
        | .error _ => ((cleanup s).1, ⟨none, none⟩)
      else
        ((cleanup (cleanup s).1).1, ⟨none, none⟩)

/-- Period in milliseconds of the heartbeat interval installed by
dataChannel.onopen in GameViewReact.tsx. -/
def heartbeatIntervalMs : Nat := 1000

/-- The wire form of the heartbeat message the interval callback
sends. -/
def heartbeatWire : String :=
  (stringify (Json.obj [("type", Json.str "heartbeat")])).getD ""

/-- Heartbeat-relevant client state: whether the interval installed by
onopen is still set (heartbeatIntervalRef), and the readyState of the
controls data channel captured by the interval callback. -/
structure HbState where
  intervalActive : Bool
  readyState : String
deriving DecidableEq

/-- Events driving the heartbeat machinery: the channel firing onopen
(which installs the interval), an interval tick (fires only while the
interval is set; a tick on a cleared interval is a no-op), a change of
the channel readyState, and cleanup (which clears the interval and
closes the channel). -/
inductive HbEvent where
  | channelOpen
  | tick
  | readyStateChange (rs : String)
  | cleanupEvt
deriving DecidableEq

/-- One heartbeat-machinery step, returning the new state and the
messages sent on the data channel: the interval callback sends the
heartbeat JSON exactly when the channel readyState is open. -/
def hbStep (s : HbState) : HbEvent → HbState × List String
  | .channelOpen => (⟨true, "open"⟩, [])
  | .tick =>
      if s.intervalActive then
        if s.readyState = "open" then (s, [heartbeatWire]) else (s, [])
      else (s, [])
  | .readyStateChange rs => ({ s with readyState := rs }, [])
  | .cleanupEvt => (⟨false, "closed"⟩, [])

/-- Run of the heartbeat machinery over an event trace, collecting all
sent messages in order. -/
def hbRun (s : HbState) : List HbEvent → HbState × List String
  | [] => (s, [])
  | e :: rest =>
      let step := hbStep s e
      let next := hbRun step.1 rest
      (next.1, step.2 ++ next.2)

/-- The handleKeydown listener of GameViewReact.tsx: sends the keydown
message (with event.keyCode under key) whenever the data channel ref
is set and its readyState is open; the Escape and preventDefault logic
does not affect sending. The ref-null case is the none readyState. -/
def handleKeydown (readyState : Option String) (keyCode : Int) : Option String :=
  if readyState = some "open" then
    stringify (Json.obj [("type", Json.str "keydown"), ("key", Json.num keyCode)])
  else none

/-- The handleKeyup listener: sends the keyup message whenever the
channel readyState is open. -/
def handleKeyup (readyState : Option String) (keyCode : Int) : Option String :=
  if readyState = some "open" then
    stringify (Json.obj [("type", Json.str "keyup"), ("key", Json.num keyCode)])
  else none

/-- The handleMouseMove listener: sends the mousemove message only
while pointer lock is held and the channel readyState is open. -/
def handleMouseMove (isPointerLocked : Bool) (readyState : Option String)
    (movementX movementY : Int) : Option String :=
  if isPointerLocked ∧ readyState = some "open" then
    stringify (Json.obj [("type", Json.str "mousemove"),
                         ("movementX", Json.num movementX),
                         ("movementY", Json.num movementY)])
  else none

/-- The handleMouseDown listener: sends the mousedown message only
while pointer lock is held and the channel readyState is open. -/
def handleMouseDown (isPointerLocked : Bool) (readyState : Option String)
    (button : Int) : Option String :=
  if isPointerLocked ∧ readyState = some "open" then
    stringify (Json.obj [("type", Json.str "mousedown"),
                         ("button", Json.num button)])
  else none

/-- The handleMouseUp listener: sends the mouseup message only while
pointer lock is held and the channel readyState is open. -/
def handleMouseUp (isPointerLocked : Bool) (readyState : Option String)
    (button : Int) : Option String :=
  if isPointerLocked ∧ readyState = some "open" then
    stringify (Json.obj [("type", Json.str "mouseup"),
                         ("button", Json.num button)])
  else none

/-- The browser events that can trigger a send on the controls channel
in GameViewReact.tsx, with the payload fields each handler reads. -/
inductive ClientEvent where
  | keydownEvt (keyCode : Int)
  | keyupEvt (keyCode : Int)
  | mousemoveEvt (movementX movementY : Int)
  | mousedownEvt (button : Int)
  | mouseupEvt (button : Int)
  | heartbeatTick
deriving DecidableEq

/-- Dispatch of a browser event to the unique send site handling it;
the result is the message sent on the controls channel, or none when
the guards fail. The heartbeat tick is the interval callback of
dataChannel.onopen. -/
def sendOnEvent (isPointerLocked : Bool) (readyState : Option String) :
    ClientEvent → Option String
  | .keydownEvt k => handleKeydown readyState k
  | .keyupEvt k => handleKeyup readyState k
  | .mousemoveEvt x y => handleMouseMove isPointerLocked readyState x y
  | .mousedownEvt b => handleMouseDown isPointerLocked readyState b
  | .mouseupEvt b => handleMouseUp isPointerLocked readyState b
  | .heartbeatTick =>
      if readyState = some "open" then
        stringify (Json.obj [("type", Json.str "heartbeat")])
      else none

/-- The six control message shapes of the protocol. -/
inductive ControlMsg where
  | heartbeat
  | keydown (key : Int)
  | keyup (key : Int)
  | mousemove (movementX movementY : Int)
  | mousedown (button : Int)
  | mouseup (button : Int)

/-- The JSON form of each control message shape. -/
def ControlMsg.toJson : ControlMsg → Json
  | .heartbeat => .obj [("type", .str "heartbeat")]
  | .keydown k => .obj [("type", .str "keydown"), ("key", .num k)]
  | .keyup k => .obj [("type", .str "keyup"), ("key", .num k)]
  | .mousemove x y =>
      .obj [("type", .str "mousemove"), ("movementX", .num x), ("movementY", .num y)]
  | .mousedown b => .obj [("type", .str "mousedown"), ("button", .num b)]
  | .mouseup b => .obj [("type", .str "mouseup"), ("button", .num b)]

/-- Own enumerable entries of a value, as the object spread operator
and Object.entries enumerate them: object fields in order, array
elements and string characters under their index keys, nothing for
other primitives. -/
def spreadFields : Json → List (String × Json)
  | .obj fields => fields
  | .arr xs => xs.enum.map fun p => (toString p.1, p.2)
  | .str s => s.toList.enum.map fun p => (toString p.1, Json.str (String.singleton p.2))
  | _ => []

/-- Entries of extra whose key is not bound in base; tail of the
object spread result. -/
def extraMinus (base : List (String × Json)) :
    List (String × Json) → List (String × Json)
  | [] => []
  | (k, v) :: rest =>
      match lookupField base k with
      | some _ => extraMinus base rest
      | none => (k, v) :: extraMinus base rest

/-- The JavaScript object spread of extra over base: keys of base keep
their position but take the value from extra when extra also binds
them; keys only in extra follow in their order. -/
def objSpread (base extra : List (String × Json)) : List (String × Json) :=
  (base.map fun kv =>
    match lookupField extra kv.1 with
    | some v => (kv.1, v)
    | none => kv)
  ++ extraMinus base extra

/-- The per-property body of the loop in handleSessionReady
(ParamsPanelReact.jsx): assigns the property description (undefined
when absent) under the ui:description key of a fresh uiSchema entry,
deletes the description, and when the remaining _ui_schema member is
truthy spreads its entries over the uiSchema entry and deletes it.
Returns the mutated property fields and the uiSchema entry. -/
def processProperty (fields : List (String × Json)) :
    List (String × Json) × List (String × Json) :=
  let ui0 := [("ui:description", (lookupField fields "description").getD Json.undef)]
  let fields1 := deleteField fields "description"
  match lookupField fields1 "_ui_schema" with
  | some u =>
      if truthy (some u) then
        (deleteField fields1 "_ui_schema", objSpread ui0 (spreadFields u))
      else (fields1, ui0)
  | none => (fields1, ui0)

/-- The Object.entries loop of handleSessionReady over the properties
of the fetched schema: reading the description of a null or undefined
property value throws a TypeError which aborts the handler; an object
property value goes through processProperty; any other primitive
value yields undefined reads and no-op deletes, so its uiSchema entry
only carries an undefined ui:description. -/
def processEntries : List (String × Json) →
    Except String (List (String × Json) × List (String × Json))
  | [] => .ok ([], [])
  | (k, v) :: rest =>
      match v with
      | .null => .error "TypeError: cannot read description of null"
      | .undef => .error "TypeError: cannot read description of undefined"
      | .obj fields =>
          match processEntries rest with
          | .error e => .error e
          | .ok (ps, us) =>
              .ok ((k, Json.obj (processProperty fields).1) :: ps,
                   (k, Json.obj (processProperty fields).2) :: us)
      | other =>
          match processEntries rest with
          | .error e => .error e
          | .ok (ps, us) =>
              .ok ((k, other) :: ps,
                   (k, Json.obj [("ui:description", Json.undef)]) :: us)

/-- The gameSessionReady handler body of ParamsPanelReact.jsx applied
to the value resolved by api.getParamsSchema: when the properties
member of the fetched schema is truthy and an object, every property
is processed and the pair of the mutated schema and the built uiSchema
is stored; otherwise the schema is stored as fetched with an empty
uiSchema. A truthy non-object properties value (number, string,
array) is stored unchanged and is modelled with an empty uiSchema,
which the claims never exercise. -/
def handleSessionReady (fullSchema : Json) : Except String (Json × Json) :=
  if truthy (jsGet fullSchema "properties") then
    match jsGet fullSchema "properties" with
    | some (Json.obj props) =>
        match processEntries props with
        | .error e => .error e
        | .ok (ps, us) =>
            .ok (setField fullSchema "properties" (Json.obj ps), Json.obj us)
    | _ => .ok (fullSchema, Json.obj [])
  else .ok (fullSchema, Json.obj [])

/-- Period in milliseconds of the polling interval in startPolling
(gameStore). -/
def pollIntervalMs : Nat := 500

/-- The nanostores atoms of the game store together with whether the
polling interval installed by startPolling is still set. -/
structure StoreState where
  games : Json
  isLoading : Bool
  pollActive : Bool

/-- Outcome of the fetch of /game_info inside one poll tick: the fetch
rejected or its json() parse threw; the response resolved but was not
ok; or it resolved ok with a parsed body. -/
inductive GameFetch where
  | failed
  | notOk
  | ok (body : Json)

/-- One tick of the interval callback of startPolling (gameStore): if
the interval is cleared nothing runs; a failed /status fetch or parse
(statusJson none) is caught before any atom update; otherwise the
isLoading atom is set from the truthiness of is_loading, then the
/game_info step runs, and only when it does not throw is the interval
cleared on a status that is no longer loading. -/
def pollTick (s : StoreState) (statusJson : Option Json)
    (gameInfo : GameFetch) : StoreState :=
  if s.pollActive then
    match statusJson with
    | none => s
    | some status =>
        let loading := truthy (jsGet status "is_loading")
        let s1 := { s with isLoading := loading }
        match gameInfo with
        | .failed => s1
        | .notOk => { s1 with pollActive := loading }
        | .ok body => { s1 with games := body, pollActive := loading }
  else s

/-- Fold of pollTick over a list of tick inputs. -/
def runPoll (s : StoreState) : List (Option Json × GameFetch) → StoreState
  | [] => s
  | (st, g) :: rest => runPoll (pollTick s st g) rest

/-- initializeStore of gameStore: on a successful /status fetch the
isLoading atom is set from is_loading and the /game_info step runs
(storing the games on an ok response); polling starts when the status
is still loading, and also from the catch block when the /status or
/game_info step throws. The atoms start as empty games and
isLoading true. -/
def initializeStore (statusJson : Option Json) (gameInfo : GameFetch) :
    StoreState :=
  match statusJson with
  | none => { games := Json.obj [], isLoading := true, pollActive := true }
  | some status =>
      let loading := truthy (jsGet status "is_loading")
      match gameInfo with
      | .failed => { games := Json.obj [], isLoading := loading, pollActive := true }
      | .notOk => { games := Json.obj [], isLoading := loading, pollActive := loading }
      | .ok body => { games := body, isLoading := loading, pollActive := loading }

/-- Client-side parameter state: the sessionId state of
ParamsPanelReact and the paramsSchema atom of the game store. -/
structure PanelState where
  sessionId : Option String
  storedSchema : Option (Json × Json)

/-- Events touching the parameter state: a gameSessionReady event with
its sessionId and the schema the handler then fetches for it, a
gameSessionEnd event, and a form submission with its form data. -/
inductive PanelEvent where
  | sessionReady (sid : String) (fetchedSchema : Json)
  | sessionEnd
  | submitForm (formData : Json)

/-- One step of the parameter state, returning the POST request issued
if any. gameSessionReady stores the sessionId and, when the schema
processing does not throw, the processed pair in the paramsSchema
atom; gameSessionEnd resets the sessionId (panel listener) and the
paramsSchema atom (gameStore listener); the onSubmit handler returns
without a request when the sessionId is null and otherwise posts the
form data through api.updateParams. -/
def panelStep (s : PanelState) : PanelEvent → PanelState × Option RequestSpec
  | .sessionReady sid fetchedSchema =>
      match handleSessionReady fetchedSchema with
      | .ok pair => ({ sessionId := some sid, storedSchema := some pair }, none)
      | .error _ => ({ s with sessionId := some sid }, none)
  | .sessionEnd => ({ sessionId := none, storedSchema := none }, none)
  | .submitForm formData =>
      match s.sessionId with
      | none => (s, none)
      | some sid => (s, some (requestSpecOf (.updateParams sid formData)))

/-- Run of the parameter state over an event trace, collecting the
issued POST requests in order. -/
def runPanel (s : PanelState) : List PanelEvent → PanelState × List RequestSpec
  | [] => (s, [])
  | e :: rest =>
      let step := panelStep s e
      let next := runPanel step.1 rest
      (next.1, step.2.toList ++ next.2)

/-- A concrete answer body of the kind the claim about startPlayback
presupposes: an object carrying sdp, type and a sessionId. -/
def answerC1 : Json :=
  Json.obj [("sdp", Json.str "v=0"), ("type", Json.str "answer"),
            ("sessionId", Json.str "session-123")]

/-- A client state in mid-negotiation: all refs set, a stream with two
tracks attached, no release operation performed yet. -/
def midSessionState : GameViewState :=
  { heartbeatInterval := some 1, dataChannel := some 1, pc := some 1,
    srcObject := some 2, connectionState := "connecting",
    intervalClearCalls := 0, channelCloseCalls := 0, pcCloseCalls := 0,
    trackStopCalls := 0 }

/-- C1: the claim states that when the POST of the offer resolves with
an answer object carrying sdp, type and a sessionId, the client sets
the remote description to that answer and dispatches gameSessionReady
with that sessionId, without invoking cleanup. The code contradicts
this: api.createOffer resolves with the parsed answer body, yet
startPlayback reads response.ok on that parsed object; the answer has
no ok member, so the truthiness check fails, the else branch calls
cleanup and throws, and the catch block calls cleanup again. The
remote description is never set, no gameSessionReady is dispatched,
and cleanup runs (the interval-clear counter moves from 0 to 1). -/
theorem startPlayback_drops_successful_answer :
    request { ok := true, statusText := "OK", body := answerC1 } = Except.ok answerC1 ∧
    jsGet answerC1 "sessionId" = some (Json.str "session-123") ∧
    (startPlaybackAfterOffer (Except.ok answerC1) midSessionState).2.remoteDescription = none ∧
    (startPlaybackAfterOffer (Except.ok answerC1) midSessionState).2.sessionReadyDetail = none ∧
    (startPlaybackAfterOffer (Except.ok answerC1) midSessionState).1.intervalClearCalls = 1 :=
  ⟨rfl, rfl, rfl, rfl, rfl⟩

/-- C6: for every sessionId and param object, updateParams issues a
POST to /params/sessionId whose JSON body is the submitted form data
wrapped under the key params, with the application/json content type
header. -/
theorem updateParams_posts_wrapped_params :
    ∀ (baseUrl sessionId : String) (data : Json),
      performFetch baseUrl (requestSpecOf (EndpointCall.updateParams sessionId data)) =
        { url := baseUrl ++ ("/params/" ++ sessionId),
          method := "POST",
          headers := [("Content-Type", "application/json")],
          body := stringify (Json.obj [("params", data)]) } := by
  intro baseUrl sessionId data
  rfl

/-- C8: for every endpoint method of ApiClient, the returned promise
resolves with the parsed response body exactly when the response is
ok, and rejects with the error built from the status text exactly when
it is not. -/
theorem api_request_resolves_iff_ok :
    ∀ (e : EndpointCall) (resp : HttpResponse) (body : Json),
      (callEndpoint e resp = Except.ok body ↔ resp.ok = true ∧ body = resp.body) ∧
      (callEndpoint e resp =
          Except.error ("API request failed: " ++ resp.statusText) ↔
        resp.ok = false) := by
  intro e resp body
  cases h : resp.ok <;> (simp [callEndpoint, request, h]; try tauto)

/-- Once the heartbeat interval is cleared, any trace that does not
fire onopen again sends nothing. -/
theorem hbRun_silent (evs : List HbEvent) : ∀ s : HbState,
    s.intervalActive = false → HbEvent.channelOpen ∉ evs →
    (hbRun s evs).2 = [] := by
  induction evs with
  | nil => intro s _ _; rfl
  | cons e rest ih =>
    intro s h hm
    have hmem : HbEvent.channelOpen ∉ rest := fun hx => hm (List.mem_cons_of_mem _ hx)
    cases e with
    | channelOpen => exact absurd (List.mem_cons_self _ _) hm
    | tick =>
        simp only [hbRun, hbStep, h, if_false, List.nil_append, Bool.false_eq_true]
        exact ih s h hmem
    | readyStateChange rs =>
        simp only [hbRun, hbStep, List.nil_append]
        exact ih _ h hmem
    | cleanupEvt =>
        simp only [hbRun, hbStep, List.nil_append]
        exact ih _ rfl hmem

/-- C2: the interval installed by the onopen handler of the controls
channel has a 1000 millisecond period and each of its ticks sends the
heartbeat JSON exactly when the channel readyState is open; a
heartbeat is sent only at such a tick, and after cleanup has cleared
the interval no message is ever sent again (unless a new channel fires
onopen). -/
theorem heartbeat_guarded_and_stops_after_cleanup :
    heartbeatIntervalMs = 1000 ∧
    heartbeatWire = "\x7b\"type\":\"heartbeat\"\x7d" ∧
    (∀ s : HbState, s.intervalActive = true → s.readyState = "open" →
      (hbStep s HbEvent.tick).2 = [heartbeatWire]) ∧
    (∀ (s : HbState) (e : HbEvent), (hbStep s e).2 ≠ [] →
      e = HbEvent.tick ∧ s.intervalActive = true ∧ s.readyState = "open" ∧
        (hbStep s e).2 = [heartbeatWire]) ∧
    (∀ (s : HbState) (evs : List HbEvent), HbEvent.channelOpen ∉ evs →
      (hbRun (hbStep s HbEvent.cleanupEvt).1 evs).2 = []) := by
  refine ⟨rfl, rfl, ?_, ?_, ?_⟩
  · intro s h1 h2
    simp [hbStep, h1, h2]
  · intro s e hne
    cases e with
    | channelOpen => exact absurd rfl hne
    | readyStateChange rs => exact absurd rfl hne
    | cleanupEvt => exact absurd rfl hne
    | tick =>
        by_cases h1 : s.intervalActive = true
        · by_cases h2 : s.readyState = "open"
          · exact ⟨rfl, h1, h2, by simp [hbStep, h1, h2]⟩
          · exact absurd (by simp [hbStep, h1, h2]) hne
        · exact absurd (by simp [hbStep, h1]) hne
  · intro s evs hm
    exact hbRun_silent evs _ rfl hm

/-- Witness for the heartbeat theorem at concrete states and a
concrete post-cleanup trace. -/
theorem heartbeat_guarded_and_stops_after_cleanup_witness :
    (hbStep ⟨true, "open"⟩ HbEvent.tick).2 = [heartbeatWire] ∧
    (HbEvent.tick = HbEvent.tick ∧ (⟨true, "open"⟩ : HbState).intervalActive = true ∧
      (⟨true, "open"⟩ : HbState).readyState = "open" ∧
      (hbStep ⟨true, "open"⟩ HbEvent.tick).2 = [heartbeatWire]) ∧
    (hbRun (hbStep ⟨true, "open"⟩ HbEvent.cleanupEvt).1
        [HbEvent.tick, HbEvent.readyStateChange "open", HbEvent.tick]).2 = [] :=
  ⟨heartbeat_guarded_and_stops_after_cleanup.2.2.1 ⟨true, "open"⟩ rfl rfl,
   heartbeat_guarded_and_stops_after_cleanup.2.2.2.1 ⟨true, "open"⟩ HbEvent.tick
     (by decide),
   heartbeat_guarded_and_stops_after_cleanup.2.2.2.2 ⟨true, "open"⟩ _ (by decide)⟩

/-- C3: every message any send site of GameViewReact.tsx ever puts on
the controls channel is the JSON serialization of one of the six
control message shapes, and a send happens only while the channel
readyState is open. -/
theorem control_messages_wellformed_and_gated :
    ∀ (isPointerLocked : Bool) (readyState : Option String) (e : ClientEvent)
      (m : String), sendOnEvent isPointerLocked readyState e = some m →
      readyState = some "open" ∧
        ∃ c : ControlMsg, stringify (ControlMsg.toJson c) = some m := by
  intro locked rs e m h
  cases e with
  | keydownEvt k =>
      simp only [sendOnEvent, handleKeydown] at h
      split at h
      · next hc => exact ⟨hc, ControlMsg.keydown k, h⟩
      · exact absurd h (by simp)
  | keyupEvt k =>
      simp only [sendOnEvent, handleKeyup] at h
      split at h
      · next hc => exact ⟨hc, ControlMsg.keyup k, h⟩
      · exact absurd h (by simp)
  | mousemoveEvt x y =>
      simp only [sendOnEvent, handleMouseMove] at h
      split at h
      · next hc => exact ⟨hc.2, ControlMsg.mousemove x y, h⟩
      · exact absurd h (by simp)
  | mousedownEvt b =>
      simp only [sendOnEvent, handleMouseDown] at h
      split at h
      · next hc => exact ⟨hc.2, ControlMsg.mousedown b, h⟩
      · exact absurd h (by simp)
  | mouseupEvt b =>
      simp only [sendOnEvent, handleMouseUp] at h
      split at h
      · next hc => exact ⟨hc.2, ControlMsg.mouseup b, h⟩
      · exact absurd h (by simp)
  | heartbeatTick =>
      simp only [sendOnEvent] at h
      split at h
      · next hc => exact ⟨hc, ControlMsg.heartbeat, h⟩
      · exact absurd h (by simp)

/-- Witness for the control message theorem at the keydown of
keyCode 65 on an open channel. -/
theorem control_messages_wellformed_and_gated_witness :
    some "open" = some "open" ∧
      ∃ c : ControlMsg, stringify (ControlMsg.toJson c) =
        some "\x7b\"type\":\"keydown\",\"key\":65\x7d" :=
  control_messages_wellformed_and_gated true (some "open")
    (ClientEvent.keydownEvt 65) "\x7b\"type\":\"keydown\",\"key\":65\x7d" rfl

/-- Running cleanup from the state cleanup leaves behind changes
nothing: every ref is already null, so no release operation runs
again, and the connection state is already disconnected. -/
theorem cleanup_state_idempotent : ∀ s : GameViewState,
    (cleanup (cleanup s).1).1 = (cleanup s).1 := by
  intro s
  obtain ⟨hi, dc, pcRef, so, cs, a, b, c, d⟩ := s
  cases hi <;> cases dc <;> cases pcRef <;> cases so <;> rfl

/-- C4: the client teardown routine is idempotent on the state it
leaves behind, and the failure paths converge on it: the
ICE-connection failed and closed states invoke cleanup, and every
outcome of the offer exchange other than a dispatched session leaves
the state cleanup produces (the not-ok branch runs cleanup twice,
which by idempotence equals running it once). -/
theorem cleanup_idempotent_and_convergent :
    (∀ s : GameViewState, (cleanup (cleanup s).1).1 = (cleanup s).1) ∧
    (∀ (ice : String) (s : GameViewState), ice = "failed" ∨ ice = "closed" →
      oniceconnectionstatechange ice s = cleanup s) ∧
    (∀ (offerResult : Except String Json) (s : GameViewState),
      (startPlaybackAfterOffer offerResult s).1 = (cleanup s).1) := by
  refine ⟨cleanup_state_idempotent, ?_, ?_⟩
  · intro ice s h
    rcases h with h | h <;> simp [oniceconnectionstatechange, h]
  · intro offerResult s
    cases offerResult with
    | error e => rfl
    | ok response =>
        cases response with
        | null => rfl
        | undef => rfl
        | bool b => exact cleanup_state_idempotent s
        | num n => exact cleanup_state_idempotent s
        | str t => exact cleanup_state_idempotent s
        | arr xs => exact cleanup_state_idempotent s
        | obj fields =>
            by_cases ht : truthy (lookupField fields "ok") = true
            · simp [startPlaybackAfterOffer, jsMember, jsCallMethod, ht]
            · have ht2 : truthy (lookupField fields "ok") = false := by
                simpa using ht
              simp only [startPlaybackAfterOffer, jsMember, ht2, if_false,
                Bool.false_eq_true]
              exact cleanup_state_idempotent s

/-- Witness for the teardown theorem: the ICE failed state at the
mid-session state invokes cleanup. -/
theorem cleanup_idempotent_and_convergent_witness :
    oniceconnectionstatechange "failed" midSessionState = cleanup midSessionState :=
  cleanup_idempotent_and_convergent.2.1 "failed" midSessionState (Or.inl rfl)

/-- Lookup of a key in the field list it was deleted from yields
nothing. -/
theorem lookup_deleteField_self (k : String) : ∀ fs : List (String × Json),
    lookupField (deleteField fs k) k = none
  | [] => rfl
  | (k1, v) :: rest => by
      by_cases h : k1 = k
      · simp [deleteField, h, lookup_deleteField_self k rest]
      · simp [deleteField, h, lookupField, lookup_deleteField_self k rest]

/-- Deleting one key leaves lookups of any other key unchanged. -/
theorem lookup_deleteField_ne (k k2 : String) (hne : k ≠ k2) :
    ∀ fs : List (String × Json),
      lookupField (deleteField fs k2) k = lookupField fs k
  | [] => rfl
  | (k1, v) :: rest => by
      have ih := lookup_deleteField_ne k k2 hne rest
      by_cases h : k1 = k2
      · have hk : k1 ≠ k := fun hh => hne (hh.symm.trans h)
        simp only [deleteField, if_pos h, lookupField, if_neg hk]
        exact ih
      · simp only [deleteField, if_neg h, lookupField]
        by_cases h2 : k1 = k
        · simp only [if_pos h2]
        · simp only [if_neg h2]
          exact ih

/-- processEntries maps processProperty over object-valued
properties. -/
theorem processEntries_map : ∀ props : List (String × List (String × Json)),
    processEntries (props.map fun p => (p.1, Json.obj p.2)) =
      Except.ok
        (props.map fun p => (p.1, Json.obj (processProperty p.2).1),
         props.map fun p => (p.1, Json.obj (processProperty p.2).2))
  | [] => rfl
  | (k, fs) :: rest => by
      simp only [List.map_cons, processEntries, processEntries_map rest]

/-- A fetched schema exercising the two corners the claim misses: the
speed property has both a description and a _ui_schema that itself
binds ui:description, and the mode property has a null (falsy)
_ui_schema. -/
def schemaC5 : Json :=
  Json.obj [("properties", Json.obj
    [("speed", Json.obj
        [("description", Json.str "Speed of the game"),
         ("_ui_schema", Json.obj [("ui:description", Json.str "Custom override")])]),
     ("mode", Json.obj [("_ui_schema", Json.null)])])]

/-- The schema the handler stores for schemaC5. -/
def storedC5 : Json :=
  match handleSessionReady schemaC5 with
  | .ok p => p.1
  | .error _ => Json.null

/-- The uiSchema the handler stores for schemaC5. -/
def uiC5 : Json :=
  match handleSessionReady schemaC5 with
  | .ok p => p.2
  | .error _ => Json.null

/-- C5 counterexample: the claim states that for every property key
the stored uiSchema entry carries the property description under
ui:description and that the stored schema properties contain no
_ui_schema field. On schemaC5 the handler stores Custom override (the
_ui_schema entry, spread after and so overriding the description)
under ui:description of speed, and the stored mode property still
contains its _ui_schema field because a falsy _ui_schema is never
deleted. -/
theorem param_schema_extraction_counterexample :
    jsGetD (jsGetD uiC5 "speed") "ui:description" = Json.str "Custom override" ∧
    Json.str "Custom override" ≠ Json.str "Speed of the game" ∧
    jsGet (jsGetD (jsGetD storedC5 "properties") "mode") "_ui_schema" =
      some Json.null := by
  refine ⟨rfl, ?_, rfl⟩
  simp

/-- C5 amended: for every fetched schema whose properties are objects,
the handler stores a schema whose properties contain no description
field and, whenever the _ui_schema member is truthy or absent, no
_ui_schema field; the uiSchema entry of each property is the object
holding the property description under ui:description with the former
_ui_schema entries spread over it (those entries taking precedence on
collision); and the whole stored pair arises by mapping this
per-property transform over the properties of the fetched schema. -/
theorem param_schema_extraction_amended :
    (∀ fields : List (String × Json),
      lookupField (processProperty fields).1 "description" = none) ∧
    (∀ fields : List (String × Json),
      truthy (lookupField fields "_ui_schema") = true →
        lookupField (processProperty fields).1 "_ui_schema" = none) ∧
    (∀ fields : List (String × Json),
      truthy (lookupField fields "_ui_schema") = false →
        (processProperty fields).2 =
          [("ui:description", (lookupField fields "description").getD Json.undef)]) ∧
    (∀ (fields : List (String × Json)) (u : Json),
      lookupField fields "_ui_schema" = some u → truthy (some u) = true →
        (processProperty fields).2 =
          objSpread
            [("ui:description", (lookupField fields "description").getD Json.undef)]
            (spreadFields u)) ∧
    (∀ props : List (String × List (String × Json)),
      processEntries (props.map fun p => (p.1, Json.obj p.2)) =
        Except.ok
          (props.map fun p => (p.1, Json.obj (processProperty p.2).1),
           props.map fun p => (p.1, Json.obj (processProperty p.2).2))) ∧
    (∀ (schemaFields : List (String × Json))
       (props : List (String × List (String × Json))),
      lookupField schemaFields "properties" =
          some (Json.obj (props.map fun p => (p.1, Json.obj p.2))) →
        handleSessionReady (Json.obj schemaFields) =
          Except.ok
            (setField (Json.obj schemaFields) "properties"
              (Json.obj (props.map fun p => (p.1, Json.obj (processProperty p.2).1))),
             Json.obj (props.map fun p => (p.1, Json.obj (processProperty p.2).2)))) := by
  have hb : ∀ fields : List (String × Json),
      lookupField (deleteField fields "description") "_ui_schema" =
        lookupField fields "_ui_schema" :=
    fun fields => lookup_deleteField_ne _ _ (by decide) fields
  refine ⟨?_, ?_, ?_, ?_, processEntries_map, ?_⟩
  · intro fields
    cases h : lookupField (deleteField fields "description") "_ui_schema" with
    | none => simp only [processProperty, h]; exact lookup_deleteField_self _ _
    | some u =>
        by_cases ht : truthy (some u) = true
        · simp only [processProperty, h, ht, if_true]
          rw [lookup_deleteField_ne _ _ (by decide)]
          exact lookup_deleteField_self _ _
        · have ht2 : truthy (some u) = false := by simpa using ht
          simp only [processProperty, h, ht2, Bool.false_eq_true, if_false]
          exact lookup_deleteField_self _ _
  · intro fields ht
    cases h : lookupField fields "_ui_schema" with
    | none => rw [h] at ht; exact absurd ht (by simp [truthy])
    | some u =>
        have ht2 : truthy (some u) = true := h ▸ ht
        simp only [processProperty, hb fields, h, ht2, if_true]
        exact lookup_deleteField_self _ _
  · intro fields ht
    cases h : lookupField fields "_ui_schema" with
    | none => simp only [processProperty, hb fields, h]
    | some u =>
        have ht2 : truthy (some u) = false := h ▸ ht
        simp only [processProperty, hb fields, h, ht2, Bool.false_eq_true,
          if_false]
  · intro fields u h ht
    simp only [processProperty, hb fields, h, ht, if_true]
  · intro schemaFields props hlook
    have hget : jsGet (Json.obj schemaFields) "properties" =
        some (Json.obj (props.map fun p => (p.1, Json.obj p.2))) := hlook
    simp only [handleSessionReady, hget, truthy, if_true,
      processEntries_map props]

/-- Witness for the amended schema-extraction theorem at concrete
property lists. -/
theorem param_schema_extraction_amended_witness :
    lookupField
        (processProperty
          [("_ui_schema", Json.obj [("ui:widget", Json.str "range")])]).1
        "_ui_schema" = none ∧
    (processProperty [("description", Json.str "d")]).2 =
      [("ui:description",
        (lookupField [("description", Json.str "d")] "description").getD
          Json.undef)] ∧
    (processProperty
        [("description", Json.str "d"),
         ("_ui_schema", Json.obj [("ui:widget", Json.str "range")])]).2 =
      objSpread
        [("ui:description",
          (lookupField
              [("description", Json.str "d"),
               ("_ui_schema", Json.obj [("ui:widget", Json.str "range")])]
              "description").getD Json.undef)]
        (spreadFields (Json.obj [("ui:widget", Json.str "range")])) ∧
    handleSessionReady
        (Json.obj [("properties",
          Json.obj [("speed", Json.obj [("description", Json.str "d")])])]) =
      Except.ok
        (setField
            (Json.obj [("properties",
              Json.obj [("speed", Json.obj [("description", Json.str "d")])])])
            "properties"
            (Json.obj [("speed",
              Json.obj (processProperty [("description", Json.str "d")]).1)]),
         Json.obj [("speed",
           Json.obj (processProperty [("description", Json.str "d")]).2)]) :=
  ⟨param_schema_extraction_amended.2.1 _ rfl,
   param_schema_extraction_amended.2.2.1 _ rfl,
   param_schema_extraction_amended.2.2.2.1 _ _ rfl rfl,
   param_schema_extraction_amended.2.2.2.2.2 _
     [("speed", [("description", Json.str "d")])] rfl⟩

/-- C9: the mouse-derived messages (mousemove, mousedown, mouseup) are
sent only while pointer lock is held and the channel is open, whereas
keydown and keyup messages are sent whenever the channel is open,
regardless of pointer lock. -/
theorem mouse_messages_require_pointer_lock :
    ∀ (isPointerLocked : Bool) (readyState : Option String) (x y b k : Int),
      ((handleMouseMove isPointerLocked readyState x y).isSome = true ↔
        isPointerLocked = true ∧ readyState = some "open") ∧
      ((handleMouseDown isPointerLocked readyState b).isSome = true ↔
        isPointerLocked = true ∧ readyState = some "open") ∧
      ((handleMouseUp isPointerLocked readyState b).isSome = true ↔
        isPointerLocked = true ∧ readyState = some "open") ∧
      ((handleKeydown readyState k).isSome = true ↔ readyState = some "open") ∧
      ((handleKeyup readyState k).isSome = true ↔ readyState = some "open") := by
  intro isPointerLocked readyState x y b k
  refine ⟨?_, ?_, ?_, ?_, ?_⟩ <;>
    · first
      | (rw [handleMouseMove]; split <;> simp_all [stringify])
      | (rw [handleMouseDown]; split <;> simp_all [stringify])
      | (rw [handleMouseUp]; split <;> simp_all [stringify])
      | (rw [handleKeydown]; split <;> simp_all [stringify])
      | (rw [handleKeyup]; split <;> simp_all [stringify])

/-- Once the polling interval has been cleared, further tick inputs
change nothing. -/
theorem runPoll_inactive : ∀ (inputs : List (Option Json × GameFetch))
    (s : StoreState), s.pollActive = false → runPoll s inputs = s
  | [], _, _ => rfl
  | (st, g) :: rest, s, h => by
      have hstep : pollTick s st g = s := by simp [pollTick, h]
      simp only [runPoll, hstep]
      exact runPoll_inactive rest s h

/-- The store state at the start of polling: empty games, isLoading
true, interval set. -/
def pollStart : StoreState :=
  { games := Json.obj [], isLoading := true, pollActive := true }

/-- A /status body reporting that loading has finished. -/
def statusDone : Json := Json.obj [("is_loading", Json.bool false)]

/-- C7 counterexample: the claim states the interval is cancelled on
the first poll that observes is_loading false, with no further polls.
On a poll whose /status step parses is_loading false but whose
/game_info fetch throws, the catch block skips clearInterval: the
isLoading atom is already false, yet the interval stays set and the
next poll still runs (and only it cancels). -/
theorem polling_cancellation_counterexample :
    (pollTick pollStart (some statusDone) GameFetch.failed).isLoading = false ∧
    (pollTick pollStart (some statusDone) GameFetch.failed).pollActive = true ∧
    pollTick (pollTick pollStart (some statusDone) GameFetch.failed)
        (some statusDone) (GameFetch.ok (Json.obj [("atari", Json.obj [])])) =
      { games := Json.obj [("atari", Json.obj [])], isLoading := false,
        pollActive := false } :=
  ⟨rfl, rfl, rfl⟩

/-- C7 amended: the game store polls on a fixed 500 millisecond
interval; each poll whose /status step succeeds stores the truthiness
of is_loading in the isLoading atom, and stores the parsed /game_info
body in the games atom when that response is ok; the interval is
cancelled on the first poll that observes is_loading false and whose
/game_info step does not throw (a throwing /game_info step skips the
cancellation and polling continues); once cancelled, no further poll
has any effect, and a /status response still loading starts the
polling from initializeStore. -/
theorem polling_behaviour_amended :
    pollIntervalMs = 500 ∧
    (∀ (s : StoreState) (st : Option Json) (g : GameFetch),
      s.pollActive = false → pollTick s st g = s) ∧
    (∀ (s : StoreState) (g : GameFetch), pollTick s none g = s) ∧
    (∀ (s : StoreState) (status body : Json), s.pollActive = true →
      pollTick s (some status) (GameFetch.ok body) =
        { games := body, isLoading := truthy (jsGet status "is_loading"),
          pollActive := truthy (jsGet status "is_loading") }) ∧
    (∀ (s : StoreState) (status : Json), s.pollActive = true →
      pollTick s (some status) GameFetch.notOk =
        { s with isLoading := truthy (jsGet status "is_loading"),
                 pollActive := truthy (jsGet status "is_loading") }) ∧
    (∀ (s : StoreState) (status : Json), s.pollActive = true →
      pollTick s (some status) GameFetch.failed =
        { s with isLoading := truthy (jsGet status "is_loading") }) ∧
    (∀ (inputs : List (Option Json × GameFetch)) (s : StoreState),
      s.pollActive = false → runPoll s inputs = s) ∧
    (∀ (status : Json) (g : GameFetch),
      truthy (jsGet status "is_loading") = true →
        (initializeStore (some status) g).pollActive = true) := by
  refine ⟨rfl, ?_, ?_, ?_, ?_, ?_, runPoll_inactive, ?_⟩
  · intro s st g h
    simp [pollTick, h]
  · intro s g
    by_cases h : s.pollActive = true <;> simp [pollTick, h]
  · intro s status body h
    simp [pollTick, h]
  · intro s status h
    simp [pollTick, h]
  · intro s status h
    simp [pollTick, h]
  · intro status g h
    cases g <;> simp [initializeStore, h]

/-- Witness for the amended polling theorem at concrete store states
and poll inputs. -/
theorem polling_behaviour_amended_witness :
    pollTick { games := Json.obj [], isLoading := false, pollActive := false }
        (some statusDone) GameFetch.failed =
      { games := Json.obj [], isLoading := false, pollActive := false } ∧
    pollTick pollStart (some statusDone) (GameFetch.ok (Json.obj [])) =
      { games := Json.obj [],
        isLoading := truthy (jsGet statusDone "is_loading"),
        pollActive := truthy (jsGet statusDone "is_loading") } ∧
    pollTick pollStart (some statusDone) GameFetch.notOk =
      { pollStart with isLoading := truthy (jsGet statusDone "is_loading"),
                       pollActive := truthy (jsGet statusDone "is_loading") } ∧
    pollTick pollStart (some statusDone) GameFetch.failed =
      { pollStart with isLoading := truthy (jsGet statusDone "is_loading") } ∧
    runPoll { games := Json.obj [], isLoading := false, pollActive := false }
        [(some statusDone, GameFetch.failed), (none, GameFetch.notOk)] =
      { games := Json.obj [], isLoading := false, pollActive := false } ∧
    (initializeStore (some (Json.obj [("is_loading", Json.bool true)]))
        (GameFetch.ok (Json.obj []))).pollActive = true :=
  ⟨polling_behaviour_amended.2.1 _ _ _ rfl,
   polling_behaviour_amended.2.2.2.1 _ _ _ rfl,
   polling_behaviour_amended.2.2.2.2.1 _ _ rfl,
   polling_behaviour_amended.2.2.2.2.2.1 _ _ rfl,
   polling_behaviour_amended.2.2.2.2.2.2.1 _ _ rfl,
   polling_behaviour_amended.2.2.2.2.2.2.2 _ (GameFetch.ok (Json.obj [])) rfl⟩

/-- As long as no gameSessionReady event arrives, a parameter state
with a null sessionId issues no POST requests. -/
theorem runPanel_no_requests : ∀ (evs : List PanelEvent) (s : PanelState),
    s.sessionId = none →
    (∀ (sid : String) (sch : Json), PanelEvent.sessionReady sid sch ∉ evs) →
    (runPanel s evs).2 = []
  | [], _, _, _ => rfl
  | e :: rest, s, h, hm => by
      have hmem : ∀ (sid : String) (sch : Json),
          PanelEvent.sessionReady sid sch ∉ rest :=
        fun sid sch hx => hm sid sch (List.mem_cons_of_mem _ hx)
      cases e with
      | sessionReady sid sch =>
          exact absurd (List.mem_cons_self _ _) (hm sid sch)
      | sessionEnd =>
          simp only [runPanel, panelStep, Option.toList_none, List.nil_append]
          exact runPanel_no_requests rest _ rfl hmem
      | submitForm d =>
          simp only [runPanel, panelStep, h, Option.toList_none,
            List.nil_append]
          exact runPanel_no_requests rest s h hmem

/-- C10: a gameSessionEnd event resets the stored paramsSchema and the
panel sessionId to null; with a null sessionId the onSubmit handler
returns without posting, and no POST is issued by any trace free of
gameSessionReady events; once a gameSessionReady supplies a fresh
sessionId, a submission posts the form data to /params of that
sessionId again. -/
theorem session_end_resets_and_blocks_submissions :
    (∀ s : PanelState, panelStep s PanelEvent.sessionEnd =
      ({ sessionId := none, storedSchema := none }, none)) ∧
    (∀ (s : PanelState) (d : Json), s.sessionId = none →
      panelStep s (PanelEvent.submitForm d) = (s, none)) ∧
    (∀ (evs : List PanelEvent) (s : PanelState), s.sessionId = none →
      (∀ (sid : String) (sch : Json), PanelEvent.sessionReady sid sch ∉ evs) →
      (runPanel s evs).2 = []) ∧
    (∀ (s : PanelState) (sid : String) (sch d : Json),
      panelStep (panelStep s (PanelEvent.sessionReady sid sch)).1
          (PanelEvent.submitForm d) =
        ((panelStep s (PanelEvent.sessionReady sid sch)).1,
         some (requestSpecOf (EndpointCall.updateParams sid d)))) := by
  refine ⟨fun s => rfl, ?_, runPanel_no_requests, ?_⟩
  · intro s d h
    simp [panelStep, h]
  · intro s sid sch d
    cases hs : handleSessionReady sch <;> simp [panelStep, hs]

/-- Witness for the session-end theorem on a concrete trace that ends
the session and then submits twice. -/
theorem session_end_resets_and_blocks_submissions_witness :
    panelStep { sessionId := none, storedSchema := none }
        (PanelEvent.submitForm (Json.obj [])) =
      ({ sessionId := none, storedSchema := none }, none) ∧
    (runPanel { sessionId := none, storedSchema := none }
        [PanelEvent.sessionEnd, PanelEvent.submitForm (Json.obj []),
         PanelEvent.submitForm (Json.obj [("speed", Json.num 3)])]).2 = [] :=
  ⟨session_end_resets_and_blocks_submissions.2.1 _ _ rfl,
   session_end_resets_and_blocks_submissions.2.2.1 _ _ rfl
     (fun sid sch => by simp)⟩
